import Mathlib

/-!
Shallow embedding of the synchronization core of the stealth-chat client
(src/src/App.tsx and src/src/components/Editor.tsx): the message-stream
reconciler with its hide-before watermark, the one-shot unread summary,
message sending, the transcript projector (read markers and time
separators), the idle/panic poll, ring-event consumption, and the
one-live-subscription discipline.  Times are epoch milliseconds as `Int`;
a `none` createdAt models a Firestore server timestamp not yet resolved.
-/

namespace StealthChat

/-- `ChatMessage` from App.tsx: id, sender, content, nullable createdAt,
seenBy list, seenAt map (modelled as an association list). -/
structure ChatMessage where
  id : String
  sender : String
  content : String
  createdAt : Option Int
  seenBy : List String
  seenAt : List (String × Option Int)
deriving DecidableEq

/-- The drop condition of the snapshot handler in `subscribeToMessages`
(App.tsx line 801): `if (hideBeforeTime && createdAt && createdAt <= hideBeforeTime) return;`. -/
def droppedByWatermark (hideBeforeTime : Option Int) (createdAt : Option Int) : Bool :=
  match hideBeforeTime, createdAt with
  | some hb, some c => decide (c ≤ hb)
  | _, _ => false

/-- The snapshot handler keeps exactly the docs not dropped by the watermark. -/
def filterSnapshot (hideBeforeTime : Option Int) (snapshot : List ChatMessage) :
    List ChatMessage :=
  snapshot.filter (fun m => !droppedByWatermark hideBeforeTime m.createdAt)

/-- The immediate local filter of the `clear_local` command (App.tsx lines
1388-1390): `prev.filter((m) => !m.createdAt || m.createdAt.getTime() >= nowMs)`. -/
def keptByClearLocal (nowMs : Int) (m : ChatMessage) : Bool :=
  match m.createdAt with
  | none => true
  | some c => decide (nowMs ≤ c)

/-- Local client state relevant to the watermark: the stored hide-before
value (localStorage) and the cached message view. -/
structure LocalView where
  watermark : Option Int
  messages : List ChatMessage
deriving DecidableEq

/-- `clear_local` (App.tsx lines 1374-1396): store `nowMs` as the
watermark and filter the cached view immediately. -/
def clearLocal (nowMs : Int) (v : LocalView) : LocalView :=
  { watermark := some nowMs
    messages := v.messages.filter (keptByClearLocal nowMs) }

/-- The view produced by a snapshot delivered after re-subscription:
every delivered doc (cached or newly arriving) passes through the
watermark filter of `subscribeToMessages`. -/
def resubscribeView (v : LocalView) (remote : List ChatMessage) : List ChatMessage :=
  filterSnapshot v.watermark remote

/-- Unread count of the first-snapshot summary (App.tsx lines 823-825):
messages whose sender is not the local user and whose seenBy does not
contain the local user. -/
def unreadCount (userName : String) (docs : List ChatMessage) : Nat :=
  (docs.filter (fun m => (m.sender != userName) && !(m.seenBy.contains userName))).length

/-- One snapshot delivery of `subscribeToMessages` (App.tsx lines 780-835),
restricted to the first-snapshot flag and the summary signal.  Returns the
new value of the per-subscription `firstSnapshot` flag and whether the
`ncp summary` line was emitted: the code emits it only when
`firstSnapshot` is set and the unread count is positive. -/
def msgSnapshotStep (userName : String) (hideBeforeTime : Option Int)
    (firstSnapshot : Bool) (snapshot : List ChatMessage) : Bool × Bool :=
  let docs := filterSnapshot hideBeforeTime snapshot
  if firstSnapshot then (false, decide (0 < unreadCount userName docs))
  else (firstSnapshot, false)

/-- Emission trace of one subscription instance over a sequence of
delivered snapshots, starting from a given `firstSnapshot` flag. -/
def summaryEmissions (userName : String) (hideBeforeTime : Option Int) :
    Bool → List (List ChatMessage) → List Bool
  | _, [] => []
  | firstSnapshot, s :: rest =>
    let r := msgSnapshotStep userName hideBeforeTime firstSnapshot s
    r.2 :: summaryEmissions userName hideBeforeTime r.1 rest

/-- `buildMarker` from Editor.tsx lines 206-217 (the same logic is inlined
in the chat-file projection effect of App.tsx lines 733-745): with no
current user the marker is a single hash; for the viewer's own message it
is a double hash exactly when some entry of seenBy differs from the
viewer; for another sender's message it is a double hash exactly when the
viewer is in seenBy. -/
def buildMarker (currentUser : Option String) (m : ChatMessage) : String :=
  match currentUser with
  | none => "#"
  | some u =>
    if m.sender = u then
      if m.seenBy.any (fun x => x != u) then "##" else "#"
    else
      if m.seenBy.contains u then "##" else "#"

/-- One hour in milliseconds (`HOUR_MS` in Editor.tsx line 266). -/
def HOUR_MS : Int := 60 * 60 * 1000

/-- One iteration of the time-separator loop of Editor.tsx lines 270-288
(also App.tsx lines 723-730), on the createdAt of one message: returns
whether a separator line is inserted before that message, and the new
anchor (`lastTime`).  A pending createdAt inserts nothing and leaves the
anchor unchanged; a defined createdAt inserts a separator when there is
no anchor yet or the message is at least one hour past the anchor, and
then the anchor is reset to this message's time. -/
def sepStep (lastTime : Option Int) (created : Option Int) : Bool × Option Int :=
  match created with
  | none => (false, lastTime)
  | some c =>
    match lastTime with
    | none => (true, some c)
    | some lt => if HOUR_MS ≤ c - lt then (true, some c) else (false, some lt)

/-- Separator flags for a message list (by createdAt), threading the
anchor from a given starting value. -/
def sepFlagsFrom (lastTime : Option Int) : List (Option Int) → List Bool
  | [] => []
  | c :: rest =>
    let r := sepStep lastTime c
    r.1 :: sepFlagsFrom r.2 rest

/-- Separator flags of the full transcript projection: the loop starts
with `lastTime = null`. -/
def separatorFlags (msgs : List (Option Int)) : List Bool :=
  sepFlagsFrom none msgs

/-- Five minutes in milliseconds (`IDLE_MS` in App.tsx line 548). -/
def IDLE_MS : Int := 5 * 60 * 1000

/-- One tick of the 30-second idle poll (App.tsx lines 547-566): if not
logged in or no chat file exists, nothing happens; otherwise panic is set
when the time since last activity, or the time continuously hidden, has
reached five minutes and panic is not already set.  Returns the panic
flag after the tick. -/
def idleTick (loggedIn chatFile : Bool) (lastActivity : Int) (lastHidden : Option Int)
    (now : Int) (panic : Bool) : Bool :=
  if !loggedIn || !chatFile then panic
  else
    let idleTooLong := decide (IDLE_MS ≤ now - lastActivity)
    let hiddenTooLong :=
      match lastHidden with
      | some h => decide (IDLE_MS ≤ now - h)
      | none => false
    if (idleTooLong || hiddenTooLong) && !panic then true else panic

/-- Run of the idle poll with last activity fixed at `lastActivity`, never
hidden, logged in, chat file present: the claim's scenario of no further
activity. -/
def runIdleTicks (lastActivity : Int) : List Int → Bool → Bool
  | [], panic => panic
  | t :: rest, panic =>
    runIdleTicks lastActivity rest (idleTick true true lastActivity none t panic)

/-- Run of the idle poll while the tab has been hidden since
`hiddenSince`; the activity timestamp is taken fresh at each tick so only
the hidden condition can fire. -/
def runHiddenTicks (hiddenSince : Int) : List Int → Bool → Bool
  | [], panic => panic
  | t :: rest, panic =>
    runHiddenTicks hiddenSince rest (idleTick true true t (some hiddenSince) t panic)

/-- Observable outcome of consuming one ring event in `subscribeToRings`
(App.tsx lines 903-958): whether the doc is deleted, whether a system
Notification is constructed, whether the fallback terminal cue
(`ring: ... triggered a notification`) is emitted, and whether the
`ring received from ...` line is emitted. -/
structure RingOutcome where
  deleted : Bool
  systemAlert : Bool
  fallbackNotice : Bool
  receivedNotice : Bool
deriving DecidableEq

/-- Deletion with no alert and no notices: the silent-cleanup path. -/
def silentDelete : RingOutcome := ⟨true, false, false, false⟩

/-- Consumption of one newly-added ring event (App.tsx lines 903-958).
`ageMs` is `Date.now() - createdAt.getTime()` when createdAt is resolved,
`none` when the server timestamp is still pending.  `notifAvailable` and
`notifGranted` model `typeof Notification !== "undefined"` and
`Notification.permission === "granted"`: the system alert fires exactly
when both hold, the fallback terminal cue otherwise. -/
def processRing (currentUser : String) (sender : Option String) (ageMs : Option Int)
    (notifAvailable notifGranted : Bool) : RingOutcome :=
  match sender with
  | none => silentDelete
  | some s =>
    if s = currentUser then silentDelete
    else
      let notify : RingOutcome :=
        ⟨true, notifAvailable && notifGranted, !(notifAvailable && notifGranted), true⟩
      match ageMs with
      | some age => if 5000 < age then silentDelete else notify
      | none => notify

/-- The login state of App.tsx (`LoginState` at lines 22-26), with the
nullable fields as options. -/
structure LoginState where
  loggedIn : Bool
  roomId : Option String
  userName : Option String
deriving DecidableEq

/-- The document written by `addDoc` in `sendMessage` (App.tsx lines
1165-1174), with both server timestamps resolved to the same server
time. -/
structure SendDoc where
  sender : String
  content : String
  createdAt : Int
  seenBy : List String
  seenAt : List (String × Int)
deriving DecidableEq

/-- Outcome of `sendMessage` (App.tsx lines 1157-1175): the not-logged-in
early return (which prints `error: not logged in`), the silent early
return on empty trimmed text, or a successful append of one document. -/
inductive SendOutcome where
  | notLoggedIn : SendOutcome
  | emptyIgnored : SendOutcome
  | sent : SendDoc → SendOutcome
deriving DecidableEq

/-- JavaScript `String.prototype.trim`: strip whitespace from both ends,
written over the character list so it evaluates. -/
def jsTrim (s : String) : String :=
  ⟨((s.data.dropWhile Char.isWhitespace).reverse.dropWhile Char.isWhitespace).reverse⟩

/-- `sendMessage` (App.tsx lines 1157-1175).  The guard is
`!login.loggedIn || !login.roomId || !login.userName`; then the text is
trimmed and an empty result returns silently; otherwise one document is
appended with the trimmed content, sender = self, seenBy = [self],
seenAt = self mapped to the server time. -/
def sendMessage (login : LoginState) (text : String) (serverTime : Int) : SendOutcome :=
  match login.loggedIn, login.roomId, login.userName with
  | true, some _, some u =>
    let trimmed := jsTrim text
    if trimmed = "" then SendOutcome.emptyIgnored
    else SendOutcome.sent ⟨u, trimmed, serverTime, [u], [(u, serverTime)]⟩
  | _, _, _ => SendOutcome.notLoggedIn

/-- The terminal lines produced by `handleSendChat` (App.tsx lines
1177-1189) around a `sendMessage` outcome: `sendMessage` itself prints
the not-logged-in error and never throws on its two early returns, so
`handleSendChat` appends `message sent` in all three cases. -/
def sendTerminalLines (o : SendOutcome) : List String :=
  match o with
  | SendOutcome.notLoggedIn => ["error: not logged in", "message sent"]
  | SendOutcome.emptyIgnored => ["message sent"]
  | SendOutcome.sent _ => ["message sent"]

/-- `handleSendChat` over the embedded `sendMessage`: outcome plus the
terminal lines it emits. -/
def handleSendChat (login : LoginState) (text : String) (serverTime : Int) :
    SendOutcome × List String :=
  let o := sendMessage login text serverTime
  (o, sendTerminalLines o)

/-- State of one stream kind (messages, presence or rings).  `liveSubs`
is the set of listener registrations currently delivering at the store
(the onSnapshot registry), `handle` the unsubscribe handle the client
holds, `nextId` the next registration id. -/
structure KindState where
  liveSubs : List Nat
  handle : Option Nat
  nextId : Nat
deriving DecidableEq

/-- The state before any subscription. -/
def initialKindState : KindState := ⟨[], none, 0⟩

/-- Calling the held unsubscribe handle removes that registration from
the store's live set (the `if (unsubscribeX) unsubscribeX()` prologue of
`subscribeToMessages` line 773, `subscribeToPresence` line 841 and
`subscribeToRings` lines 891-898). -/
def detachHandle (s : KindState) : KindState :=
  match s.handle with
  | some h => { s with liveSubs := s.liveSubs.filter (fun i => i ≠ h), handle := none }
  | none => s

/-- One attach for a stream kind: detach the previous subscription if a
handle is held, then register a fresh listener and keep its handle. -/
def attachKind (s : KindState) : KindState :=
  let d := detachHandle s
  { liveSubs := d.liveSubs ++ [d.nextId]
    handle := some d.nextId
    nextId := d.nextId + 1 }

/-- The state after `n` successive attaches from the initial state. -/
def runAttaches : Nat → KindState
  | 0 => initialKindState
  | n + 1 => attachKind (runAttaches n)

/-- A snapshot delivery from registration `subId` replaces the current
view only if that registration is still live at the store; a delivery
from an unsubscribed registration never fires. -/
def deliverSnapshot (s : KindState) (subId : Nat) (payload cur : List ChatMessage) :
    List ChatMessage :=
  if subId ∈ s.liveSubs then payload else cur

/-- C1 counterexample: the claim states that after `clearLocal(now)` and
re-subscription a message with createdAt exactly equal to the watermark is
shown.  The snapshot filter of `subscribeToMessages` drops messages with
`createdAt <= hideBeforeTime`, so a message created exactly at the
watermark (1000) is hidden after re-subscription. -/
theorem C1_counterexample :
    resubscribeView (clearLocal 1000 ⟨none, []⟩)
      [⟨"m1", "bob", "hi", some 1000, ["bob"], []⟩] = [] := rfl

/-- C1 (amended): after `clearLocal(now)` followed by re-subscription, a
delivered message (cached or newly arriving) is shown iff its createdAt is
pending or strictly greater than `now`; messages with `createdAt ≤ now`
(the watermark included) are hidden.  The immediate local filter performed
by `clearLocal` itself keeps messages with pending createdAt or
`createdAt ≥ now`. -/
theorem C1_amended (nowMs : Int) (v : LocalView) (remote : List ChatMessage)
    (m : ChatMessage) :
    (m ∈ resubscribeView (clearLocal nowMs v) remote ↔
      m ∈ remote ∧ (m.createdAt = none ∨ ∃ c, m.createdAt = some c ∧ nowMs < c)) ∧
    (m ∈ (clearLocal nowMs v).messages ↔
      m ∈ v.messages ∧ (m.createdAt = none ∨ ∃ c, m.createdAt = some c ∧ nowMs ≤ c)) := by
  constructor
  · simp only [resubscribeView, clearLocal, filterSnapshot, List.mem_filter]
    cases h : m.createdAt with
    | none => simp [droppedByWatermark, h]
    | some c => simp [droppedByWatermark, h]
  · simp only [clearLocal, List.mem_filter]
    cases h : m.createdAt with
    | none => simp [keptByClearLocal, h]
    | some c => simp [keptByClearLocal, h]

/-- C1 witness: a message created strictly after the watermark survives
re-subscription. -/
theorem C1_witness :
    (⟨"m2", "bob", "yo", some 20, [], []⟩ : ChatMessage) ∈
      resubscribeView (clearLocal 10 ⟨none, []⟩)
        [⟨"m2", "bob", "yo", some 20, [], []⟩] :=
  ((C1_amended 10 ⟨none, []⟩ [⟨"m2", "bob", "yo", some 20, [], []⟩]
      ⟨"m2", "bob", "yo", some 20, [], []⟩).1).mpr
    ⟨List.mem_singleton.mpr rfl, Or.inr ⟨20, rfl, by decide⟩⟩

/-- C2 counterexample: the claim states that the first snapshot emits the
summary signal even when the unread count is zero.  A first snapshot whose
only message is the local user's own (hence unread count 0) emits no
summary: the code guards the emission with `unreadCount > 0`. -/
theorem C2_counterexample :
    summaryEmissions "alice" none true
      [[⟨"m1", "alice", "hi", some 5, ["alice"], []⟩]] = [false] := rfl

/-- C2 (amended): over any snapshot sequence of one subscription instance
started with a fresh first-snapshot flag, the first snapshot emits the
summary signal iff its unread count (messages with sender ≠ self and
self ∉ seenBy, after watermark filtering) is positive, and no later
snapshot ever emits it regardless of content. -/
theorem C2_amended (u : String) (hb : Option Int) (s : List ChatMessage)
    (rest : List (List ChatMessage)) :
    summaryEmissions u hb true (s :: rest) =
      decide (0 < unreadCount u (filterSnapshot hb s)) :: rest.map (fun _ => false) := by
  have tail : ∀ l : List (List ChatMessage),
      summaryEmissions u hb false l = l.map (fun _ => false) := by
    intro l
    induction l with
    | nil => rfl
    | cons a t ih => simp [summaryEmissions, msgSnapshotStep, ih]
  simp [summaryEmissions, msgSnapshotStep, tail rest]

/-- C2 witness: two empty snapshots produce no summary emission at all. -/
theorem C2_witness :
    summaryEmissions "alice" none true [[], []] = [false, false] := by
  have h := C2_amended "alice" none [] [[]]
  simpa using h

/-- C3 counterexample: the claim states `send` fails with a
ValidationError on empty trimmed content and that the failure modes are
distinguishable from success.  Sending whitespace while logged in is
silently ignored — no message is appended, no error is surfaced, and
`handleSendChat` still prints the `message sent` success line. -/
theorem C3_counterexample :
    handleSendChat ⟨true, some "room1", some "alice"⟩ "   " 7 =
      (SendOutcome.emptyIgnored, ["message sent"]) := rfl

/-- C3 (amended): with no active session `sendMessage` surfaces
`error: not logged in` and appends nothing (`handleSendChat` still prints
`message sent` afterwards); with a session and empty trimmed content the
call is a silent no-op apart from the generic `message sent` line;
otherwise exactly one document is appended with the trimmed content,
sender = self, seenBy = {self} and seenAt = {self ↦ serverTime}.  Only the
missing-session failure is distinguishable; the empty-content path emits
the same lines as success. -/
theorem C3_amended (login : LoginState) (text : String) (t : Int) :
    ((login.loggedIn = false ∨ login.roomId = none ∨ login.userName = none) →
      handleSendChat login text t =
        (SendOutcome.notLoggedIn, ["error: not logged in", "message sent"])) ∧
    (∀ r u, login = ⟨true, some r, some u⟩ → jsTrim text = "" →
      handleSendChat login text t = (SendOutcome.emptyIgnored, ["message sent"])) ∧
    (∀ r u, login = ⟨true, some r, some u⟩ → jsTrim text ≠ "" →
      handleSendChat login text t =
        (SendOutcome.sent ⟨u, jsTrim text, t, [u], [(u, t)]⟩, ["message sent"])) := by
  obtain ⟨lg, rm, un⟩ := login
  refine ⟨?_, ?_, ?_⟩
  · intro h
    rcases h with h | h | h
    · subst h; rfl
    · subst h; cases lg <;> rfl
    · subst h; cases lg <;> cases rm <;> rfl
  · intro r u h ht
    cases h
    simp [handleSendChat, sendMessage, sendTerminalLines, ht]
  · intro r u h ht
    cases h
    simp [handleSendChat, sendMessage, sendTerminalLines, ht]

/-- C3 witness: a logged-in send of text with surrounding whitespace
appends one document with the trimmed content and self-seen receipts. -/
theorem C3_witness :
    handleSendChat ⟨true, some "room1", some "alice"⟩ " hello " 7 =
      (SendOutcome.sent ⟨"alice", "hello", 7, ["alice"], [("alice", 7)]⟩,
        ["message sent"]) := by
  have h := (C3_amended ⟨true, some "room1", some "alice"⟩ " hello " 7).2.2
    "room1" "alice" rfl (by decide)
  exact h

/-- C4: the projected marker is a double hash exactly when, from the
viewer's perspective, the message has been seen by someone other than its
author — for the author viewing their own message iff seenBy contains any
user ≠ author, for a non-author viewer iff the viewer ∈ seenBy — and the
marker is always one of the two hash forms. -/
theorem C4_marker_correct (u : String) (m : ChatMessage) :
    (m.sender = u → (buildMarker (some u) m = "##" ↔ ∃ x ∈ m.seenBy, x ≠ u)) ∧
    (m.sender ≠ u → (buildMarker (some u) m = "##" ↔ u ∈ m.seenBy)) ∧
    (buildMarker (some u) m = "##" ∨ buildMarker (some u) m = "#") := by
  have hany : (m.seenBy.any (fun x => x != u)) = true ↔ ∃ x ∈ m.seenBy, x ≠ u := by simp
  have hcont : (m.seenBy.contains u) = true ↔ u ∈ m.seenBy := by simp
  refine ⟨?_, ?_, ?_⟩
  · intro hs
    simp only [buildMarker, if_pos hs]
    by_cases h : m.seenBy.any (fun x => x != u)
    · simp only [if_pos h]
      exact iff_of_true trivial (hany.mp h)
    · simp only [if_neg h]
      exact iff_of_false (by decide) (fun hex => h (hany.mpr hex))
  · intro hs
    simp only [buildMarker, if_neg hs]
    by_cases h : m.seenBy.contains u
    · simp only [if_pos h]
      exact iff_of_true trivial (hcont.mp h)
    · simp only [if_neg h]
      exact iff_of_false (by decide) (fun hm => h (hcont.mpr hm))
  · simp only [buildMarker]
    by_cases hs : m.sender = u
    · simp only [if_pos hs]
      by_cases h : m.seenBy.any (fun x => x != u)
      · simp only [if_pos h]
        exact Or.inl trivial
      · simp only [if_neg h]
        exact Or.inr trivial
    · simp only [if_neg hs]
      by_cases h : m.seenBy.contains u
      · simp only [if_pos h]
        exact Or.inl trivial
      · simp only [if_neg h]
        exact Or.inr trivial

/-- C4 witness: the author's message whose seenBy contains another user
carries the double-hash marker. -/
theorem C4_witness :
    buildMarker (some "alice") ⟨"m1", "alice", "hi", none, ["alice", "bob"], []⟩ = "##" :=
  ((C4_marker_correct "alice" ⟨"m1", "alice", "hi", none, ["alice", "bob"], []⟩).1
    rfl).mpr ⟨"bob", by decide, by decide⟩



/-- C5: in the transcript projection a time separator precedes exactly
the messages whose createdAt is at least one hour past the current
anchor: messages at offsets 0, 30 min, 61 min and 62 min from any origin
get separators before indices 0 and 2 only; the first message with a
defined createdAt always receives a separator (messages with pending
createdAt before it get none); and a defined-createdAt message receives a
separator iff it is ≥ 1 hour past the anchor, resetting the anchor to its
own time exactly when the separator is inserted. -/
theorem C5_separator_placement (t0 : Int) :
    (separatorFlags [some t0, some (t0 + 1800000), some (t0 + 3660000),
        some (t0 + 3720000)] = [true, false, true, false]) ∧
    (∀ (pre : List (Option Int)) (c : Int) (rest : List (Option Int)),
      (∀ x ∈ pre, x = none) →
      separatorFlags (pre ++ some c :: rest) =
        List.replicate pre.length false ++ true :: sepFlagsFrom (some c) rest) ∧
    (∀ (lt c : Int) (rest : List (Option Int)),
      sepFlagsFrom (some lt) (some c :: rest) =
        decide (HOUR_MS ≤ c - lt) ::
          sepFlagsFrom (if HOUR_MS ≤ c - lt then some c else some lt) rest) := by
  refine ⟨?_, ?_, ?_⟩
  · have e1 : t0 + 1800000 - t0 = (1800000 : Int) := by ring
    have e2 : t0 + 3660000 - t0 = (3660000 : Int) := by ring
    have e3 : t0 + 3720000 - (t0 + 3660000) = (60000 : Int) := by ring
    have hm : HOUR_MS = (3600000 : Int) := by norm_num [HOUR_MS]
    simp [separatorFlags, sepFlagsFrom, sepStep, e1, e2, e3, hm]
  · intro pre
    induction pre with
    | nil =>
      intro c rest _
      simp [separatorFlags, sepFlagsFrom, sepStep]
    | cons a t ih =>
      intro c rest h
      have ha : a = none := h a (List.mem_cons_self a t)
      subst ha
      have ht : ∀ x ∈ t, x = none := fun x hx => h x (List.mem_cons_of_mem _ hx)
      have hrec := ih c rest ht
      simp only [separatorFlags] at hrec ⊢
      simp [sepFlagsFrom, sepStep, hrec, List.replicate_succ]
  · intro lt c rest
    by_cases h : HOUR_MS ≤ c - lt
    · simp [sepFlagsFrom, sepStep, h]
    · simp [sepFlagsFrom, sepStep, h]

/-- C5 witness: with a pending-createdAt message first, the first defined
createdAt still receives the separator. -/
theorem C5_witness :
    separatorFlags [none, some 5] = [false, true] := by
  have h := (C5_separator_placement 0).2.1 [none] 5 []
    (by intro x hx; simpa using hx)
  simpa using h

/-- C6: on the 30-second idle poll with last activity at `lastActivity`,
no further activity, panic initially unset, logged in and a chat file
present, panic is set after a sequence of poll ticks iff some tick is at
or after `lastActivity` + 5 minutes — i.e. it becomes true at the first
such tick and never at an earlier one; the same holds for ticks measured
against a continuous tab-hidden start. -/
theorem C6_idle_panic_timing (lastActivity hiddenSince : Int) (ticks : List Int) :
    runIdleTicks lastActivity ticks false =
      ticks.any (fun t => decide (lastActivity + IDLE_MS ≤ t)) ∧
    runHiddenTicks hiddenSince ticks false =
      ticks.any (fun t => decide (hiddenSince + IDLE_MS ≤ t)) := by
  have hdec : ∀ a t : Int, decide (IDLE_MS ≤ t - a) = decide (a + IDLE_MS ≤ t) := by
    intro a t
    by_cases h : IDLE_MS ≤ t - a
    · rw [decide_eq_true h, decide_eq_true (by omega)]
    · rw [decide_eq_false h, decide_eq_false (by omega)]
  have hdecl : ∀ a t : Int, decide ((300000 : Int) ≤ t - a) = decide (a + 300000 ≤ t) := by
    simpa [IDLE_MS] using hdec
  have step1 : ∀ (ts : List Int) (p : Bool),
      runIdleTicks lastActivity ts p =
        (p || ts.any (fun t => decide (lastActivity + IDLE_MS ≤ t))) := by
    intro ts
    induction ts with
    | nil => intro p; simp [runIdleTicks]
    | cons t rest ih =>
      intro p
      rw [runIdleTicks, ih]
      cases p
      · simp [idleTick, hdec, List.any_cons]
      · simp [idleTick, List.any_cons]
  have step2 : ∀ (ts : List Int) (p : Bool),
      runHiddenTicks hiddenSince ts p =
        (p || ts.any (fun t => decide (hiddenSince + IDLE_MS ≤ t))) := by
    intro ts
    induction ts with
    | nil => intro p; simp [runHiddenTicks]
    | cons t rest ih =>
      intro p
      rw [runHiddenTicks, ih]
      cases p
      · simp [idleTick, hdec, hdecl, List.any_cons, IDLE_MS]
      · simp [idleTick, List.any_cons]
  constructor
  · rw [step1]
    simp
  · rw [step2]
    simp

/-- C7: a newly-added ring event from the observing user is deleted with
no alert and no notices; one whose age at observation exceeds 5000 ms is
deleted with no alert and no notices; otherwise the system alert is
attempted exactly when notifications are available and granted, the local
fallback cue is emitted exactly otherwise, the received notice is always
emitted, and the event is deleted. -/
theorem C7_ring_consumption (u s : String) (age : Int) (avail granted : Bool) :
    (processRing u (some u) (some age) avail granted = silentDelete) ∧
    (5000 < age → processRing u (some s) (some age) avail granted = silentDelete) ∧
    (s ≠ u → age ≤ 5000 →
      processRing u (some s) (some age) avail granted =
        ⟨true, avail && granted, !(avail && granted), true⟩) := by
  refine ⟨?_, ?_, ?_⟩
  · simp [processRing]
  · intro h
    by_cases hs : s = u
    · simp [processRing, hs]
    · simp [processRing, hs, h]
  · intro hs hage
    simp [processRing, hs, not_lt.mpr hage]

/-- C7 witness: a fresh ring from another user with notifications denied
produces the fallback cue, the received notice, and deletion. -/
theorem C7_witness :
    processRing "alice" (some "bob") (some 1000) true false =
      ⟨true, false, true, true⟩ := by
  have h := (C7_ring_consumption "alice" "bob" 1000 true false).2.2
    (by decide) (by decide)
  simpa using h

/-- C8: attaching a subscription for a stream kind first detaches the
previously held one, so after any number of attaches at most one
registration is live, the live registration is exactly the held handle,
and a snapshot delivery from any superseded registration never replaces
the current view. -/
theorem C8_single_live_subscription (n j : Nat) :
    (runAttaches n).liveSubs.length ≤ 1 ∧
    (∀ i ∈ (runAttaches n).liveSubs, (runAttaches n).handle = some i) ∧
    (j + 1 < n → ∀ payload cur : List ChatMessage,
      deliverSnapshot (runAttaches n) j payload cur = cur) := by
  have char : ∀ m : Nat, runAttaches (m + 1) = ⟨[m], some m, m + 1⟩ := by
    intro m
    induction m with
    | zero => rfl
    | succ k ih =>
      show attachKind (runAttaches (k + 1)) = _
      rw [ih]
      simp [attachKind, detachHandle, List.filter]
  cases n with
  | zero =>
    refine ⟨by simp [runAttaches, initialKindState], ?_, ?_⟩
    · intro i hi
      simp [runAttaches, initialKindState] at hi
    · intro h
      omega
  | succ m =>
    rw [char m]
    refine ⟨by simp, ?_, ?_⟩
    · intro i hi
      simp at hi
      simp [hi]
    · intro h payload cur
      have hj : j ≠ m := by omega
      simp [deliverSnapshot, hj]

/-- C8 witness: after two attaches the single live registration is the
second one and a delivery from the first leaves the view unchanged. -/
theorem C8_witness :
    (runAttaches 2).liveSubs.length ≤ 1 ∧
    (runAttaches 2).handle = some 1 ∧
    deliverSnapshot (runAttaches 2) 0 [⟨"m", "a", "x", none, [], []⟩] [] = [] := by
  refine ⟨(C8_single_live_subscription 2 0).1, ?_, ?_⟩
  · exact (C8_single_live_subscription 2 0).2.1 1 (by decide)
  · exact (C8_single_live_subscription 2 0).2.2 (by decide)
      [⟨"m", "a", "x", none, [], []⟩] []

/-- C9: a message whose createdAt is still pending (null) is never
removed by watermark filtering — both the per-snapshot hide-before filter
and the immediate local filter of `clear_local` retain it, for every
watermark value. -/
theorem C9_null_createdAt_immune (hb nowMs : Int) (msgs : List ChatMessage)
    (m : ChatMessage) (hnull : m.createdAt = none) (hmem : m ∈ msgs) :
    m ∈ filterSnapshot (some hb) msgs ∧ m ∈ msgs.filter (keptByClearLocal nowMs) := by
  constructor
  · refine List.mem_filter.mpr ⟨hmem, ?_⟩
    simp [droppedByWatermark, hnull]
  · refine List.mem_filter.mpr ⟨hmem, ?_⟩
    simp [keptByClearLocal, hnull]

/-- C9 witness: a pending-createdAt message survives both filters at
concrete watermarks. -/
theorem C9_witness :
    (⟨"m1", "bob", "hi", none, [], []⟩ : ChatMessage) ∈
        filterSnapshot (some 99) [⟨"m1", "bob", "hi", none, [], []⟩] ∧
    (⟨"m1", "bob", "hi", none, [], []⟩ : ChatMessage) ∈
        List.filter (keptByClearLocal 42) [⟨"m1", "bob", "hi", none, [], []⟩] :=
  C9_null_createdAt_immune 99 42 _ _ rfl (List.mem_singleton.mpr rfl)

/-- C10: a ring event from another user whose createdAt is unresolved at
observation bypasses the 5-second staleness check entirely: it always
yields the alert or fallback cue plus the received notice, and is then
deleted. -/
theorem C10_null_ring_bypasses_staleness (u s : String) (avail granted : Bool)
    (hs : s ≠ u) :
    processRing u (some s) none avail granted =
      ⟨true, avail && granted, !(avail && granted), true⟩ := by
  simp [processRing, hs]

/-- C10 witness: an unresolved-createdAt ring from another user with
notifications unavailable produces the fallback cue and received notice
before deletion. -/
theorem C10_witness :
    processRing "alice" (some "bob") none false true =
      ⟨true, false, true, true⟩ := by
  have h := C10_null_ring_bypasses_staleness "alice" "bob" false true (by decide)
  simpa using h

end StealthChat
